import Mathlib

/-!
# Verification of the quasi-glib synchronization shim

A shallow embedding of `patch/quasi-glib/quasi-glib.cpp`: a small shim
offering glib-style mutexes, recursive mutexes, condition variables,
thread-local keys and thread handles on top of pthreads, with lazy
race-safe allocation of the underlying OS objects.

Heap-allocated OS objects are identified by allocation order (`Nat` ids);
an `AllocState` records which ids exist, which construction routine made
each, and which were destroyed.  The `extern "C"` functions of the shim are
embedded as pure functions over this state; the concurrent first-use race
of the `*_get_impl` functions is embedded as an interleaving step relation
(`GetImplStep`).
-/

namespace QuasiGlib

/-- The construction routines of the shim, one per underlying OS object
type: `g_mutex_impl_new` (default attributes), `g_rec_mutex_impl_new`
(`PTHREAD_MUTEX_RECURSIVE`), `g_cond_impl_new`, and `g_private_impl_new`
(which freezes the destructor `notify`, modelled as an optional function
pointer id, into the created key). -/
inductive ObjKind
  | mutex
  | recMutex
  | cond
  | key (notify : Option Nat)
deriving DecidableEq, Repr

/-- Allocator state: ids below `nextId` have been allocated; `created`
records each allocation with the kind of construction routine that made
it (most recent first); `freed` lists the destroyed ids. -/
structure AllocState where
  nextId : Nat
  created : List (Nat × ObjKind)
  freed : List Nat
deriving DecidableEq, Repr

/-- Allocate a fresh OS object of kind `k`: returns its id. -/
def implNew (k : ObjKind) (a : AllocState) : Nat × AllocState :=
  (a.nextId, ⟨a.nextId + 1, (a.nextId, k) :: a.created, a.freed⟩)

/-- Destroy (free) the OS object `obj`. -/
def implFree (obj : Nat) (a : AllocState) : AllocState :=
  ⟨a.nextId, a.created, obj :: a.freed⟩

/-- An object is live when it has been allocated and not freed. -/
def AllocState.live (a : AllocState) (i : Nat) : Prop :=
  i < a.nextId ∧ i ∉ a.freed

/-- C `g_mutex_impl_new`: `pthread_mutex_init` with default attributes on a
fresh heap cell. -/
def g_mutex_impl_new (a : AllocState) : Nat × AllocState :=
  implNew .mutex a

/-- C `g_mutex_impl_free`: `pthread_mutex_destroy` and `delete`. -/
def g_mutex_impl_free (obj : Nat) (a : AllocState) : AllocState :=
  implFree obj a

/-- C `g_rec_mutex_impl_new`: as `g_mutex_impl_new` but with
`PTHREAD_MUTEX_RECURSIVE` set on the attributes. -/
def g_rec_mutex_impl_new (a : AllocState) : Nat × AllocState :=
  implNew .recMutex a

/-- C `g_rec_mutex_impl_free`. -/
def g_rec_mutex_impl_free (obj : Nat) (a : AllocState) : AllocState :=
  implFree obj a

/-- C `g_cond_impl_new`: `pthread_cond_init` on a fresh heap cell. -/
def g_cond_impl_new (a : AllocState) : Nat × AllocState :=
  implNew .cond a

/-- C `g_cond_impl_free`. -/
def g_cond_impl_free (obj : Nat) (a : AllocState) : AllocState :=
  implFree obj a

/-- C `g_private_impl_new`: `pthread_key_create` binding the destructor
`notify` into the new key. -/
def g_private_impl_new (notify : Option Nat) (a : AllocState) : Nat × AllocState :=
  implNew (.key notify) a

/-- C `g_private_impl_free`. -/
def g_private_impl_free (obj : Nat) (a : AllocState) : AllocState :=
  implFree obj a

/-! ## Sequential semantics of the handle operations

A `GMutex`/`GRecMutex`/`GCond` handle is its ownership slot: `none` is the
zero sentinel, `some i` a pointer to OS object `i`.  The sequential
semantics of `g_mutex_get_impl` covers the uncontended executions: with no
interleaved writer the compare-and-swap cannot fail, so the failure branch
is unreachable here; contended executions are modelled by the step
relation `GetImplStep` below. -/

/-- C `g_mutex_get_impl`, sequential semantics: return the slot's object,
allocating it first (via `g_mutex_impl_new` and a compare-and-swap that
succeeds, there being no concurrent writer) if the slot is the sentinel.
Returns the impl id, the new slot, and the new allocator state. -/
def g_mutex_get_impl (slot : Option Nat) (a : AllocState) :
    Nat × Option Nat × AllocState :=
  match slot with
  | some impl => (impl, some impl, a)
  | none =>
      let (impl, a') := g_mutex_impl_new a
      (impl, some impl, a')

/-- C `g_mutex_init`: unconditionally stores a fresh object in the slot. -/
def g_mutex_init (a : AllocState) : Option Nat × AllocState :=
  let (impl, a') := g_mutex_impl_new a
  (some impl, a')

/-- C `g_mutex_lock`: `pthread_mutex_lock(g_mutex_get_impl(mutex))`.  The
returned id is the OS object the lock call is delegated to. -/
def g_mutex_lock (slot : Option Nat) (a : AllocState) :
    Nat × Option Nat × AllocState :=
  g_mutex_get_impl slot a

/-- C `g_mutex_unlock`: `pthread_mutex_unlock(g_mutex_get_impl(mutex))`. -/
def g_mutex_unlock (slot : Option Nat) (a : AllocState) :
    Nat × Option Nat × AllocState :=
  g_mutex_get_impl slot a

/-- C `g_rec_mutex_get_impl`, sequential semantics (same control flow as
`g_mutex_get_impl`, constructing via `g_rec_mutex_impl_new`). -/
def g_rec_mutex_get_impl (slot : Option Nat) (a : AllocState) :
    Nat × Option Nat × AllocState :=
  match slot with
  | some impl => (impl, some impl, a)
  | none =>
      let (impl, a') := g_rec_mutex_impl_new a
      (impl, some impl, a')

/-- C `g_rec_mutex_init`. -/
def g_rec_mutex_init (a : AllocState) : Option Nat × AllocState :=
  let (impl, a') := g_rec_mutex_impl_new a
  (some impl, a')

/-- C `g_rec_mutex_lock`. -/
def g_rec_mutex_lock (slot : Option Nat) (a : AllocState) :
    Nat × Option Nat × AllocState :=
  g_rec_mutex_get_impl slot a

/-- C `g_rec_mutex_unlock`. -/
def g_rec_mutex_unlock (slot : Option Nat) (a : AllocState) :
    Nat × Option Nat × AllocState :=
  g_rec_mutex_get_impl slot a

/-- C `g_cond_get_impl`, sequential semantics (same control flow,
constructing via `g_cond_impl_new`). -/
def g_cond_get_impl (slot : Option Nat) (a : AllocState) :
    Nat × Option Nat × AllocState :=
  match slot with
  | some impl => (impl, some impl, a)
  | none =>
      let (impl, a') := g_cond_impl_new a
      (impl, some impl, a')

/-- C `g_cond_init`. -/
def g_cond_init (a : AllocState) : Option Nat × AllocState :=
  let (impl, a') := g_cond_impl_new a
  (some impl, a')

/-- C `g_cond_wait`: `pthread_cond_wait(g_cond_get_impl(cond),
g_mutex_get_impl(mutex))`.  Returns the pair of delegated-to objects, the
two new slots and the allocator state. -/
def g_cond_wait (condSlot mutexSlot : Option Nat) (a : AllocState) :
    (Nat × Nat) × Option Nat × Option Nat × AllocState :=
  let (ci, condSlot', a') := g_cond_get_impl condSlot a
  let (mi, mutexSlot', a'') := g_mutex_get_impl mutexSlot a'
  ((ci, mi), condSlot', mutexSlot', a'')

/-- C `g_cond_signal`: `pthread_cond_signal(g_cond_get_impl(cond))`. -/
def g_cond_signal (slot : Option Nat) (a : AllocState) :
    Nat × Option Nat × AllocState :=
  g_cond_get_impl slot a

/-- C `g_cond_broadcast`: `pthread_cond_broadcast(g_cond_get_impl(cond))`. -/
def g_cond_broadcast (slot : Option Nat) (a : AllocState) :
    Nat × Option Nat × AllocState :=
  g_cond_get_impl slot a

/-! ## Thread-local storage (`GPrivate`) -/

/-- The C `GPrivate` structure: the lazily allocated `pthread_key_t*` slot
and the destructor captured at declaration time (`future` padding
omitted). -/
structure GPrivate where
  p : Option Nat
  notify : Option Nat
deriving DecidableEq, Repr

/-- State for the `g_private_*` operations: the key handle, the allocator,
and the pthread TLS store, mapping a key object id and a thread id to the
stored `void*` value (`0` is the null pointer, the value
`pthread_getspecific` yields when nothing was ever set). -/
structure PrivState where
  key : GPrivate
  alloc : AllocState
  tls : Nat → Nat → Nat

/-- C `g_private_get_impl`, sequential semantics (same control flow as
`g_mutex_get_impl`, constructing via `g_private_impl_new key->notify`). -/
def g_private_get_impl (s : PrivState) : Nat × PrivState :=
  match s.key.p with
  | some impl => (impl, s)
  | none =>
      let (impl, a') := g_private_impl_new s.key.notify s.alloc
      (impl, ⟨⟨some impl, s.key.notify⟩, a', s.tls⟩)

/-- C `g_private_get`, executed by thread `tid`:
`pthread_getspecific(*g_private_get_impl(key))`. -/
def g_private_get (tid : Nat) (s : PrivState) : Nat × PrivState :=
  let (impl, s') := g_private_get_impl s
  (s'.tls impl tid, s')

/-- C `g_private_set`, executed by thread `tid`:
`pthread_setspecific(*g_private_get_impl(key), value)` — stores `value`
for the calling thread only. -/
def g_private_set (tid : Nat) (value : Nat) (s : PrivState) : PrivState :=
  let (impl, s') := g_private_get_impl s
  ⟨s'.key, s'.alloc, fun k t => if k = impl then (if t = tid then value else s'.tls k t) else s'.tls k t⟩

/-- A `g_private_set` call: which thread stored which value. -/
structure PrivOp where
  tid : Nat
  value : Nat
deriving DecidableEq, Repr

/-- Run a sequence of `g_private_set` calls against one `GPrivate`. -/
def runPrivOps (ops : List PrivOp) (s : PrivState) : PrivState :=
  ops.foldl (fun s op => g_private_set op.tid op.value s) s

/-- The value thread `tid` most recently stored in `ops` (`0`, the null
sentinel, when `ops` contains no store by `tid`). -/
def lastSetBy (tid : Nat) (ops : List PrivOp) : Nat :=
  ops.foldl (fun acc op => if op.tid = tid then op.value else acc) 0

/-- A zero-initialized `GPrivate` (`G_PRIVATE_INIT(notify)`), a fresh
allocator and an empty TLS store. -/
def privInit (notify : Option Nat) (slot : Option Nat) (a : AllocState) : PrivState :=
  ⟨⟨slot, notify⟩, a, fun _ _ => 0⟩

/-! ## Threads (`GThread`) -/

/-- The C `GError` structure. -/
structure GError where
  domain : Nat
  code : Int
  message : String
deriving DecidableEq, Repr

/-- C `g_clear_error`.  The argument models the `GError**`: `none` is a
null pointer, `some e` a pointer to a slot currently holding `e`.  Returns
the slot contents after the call and the list of freed error objects. -/
def g_clear_error (err : Option (Option GError)) :
    Option (Option GError) × List GError :=
  match err with
  | none => (none, [])
  | some none => (some none, [])
  | some (some e) => (some none, [e])

/-- The C `GThread` structure (the `pthread_t` itself is opaque and
omitted; only the reference count is observable to the claims). -/
structure GThread where
  ref_count : Int
deriving DecidableEq, Repr

/-- C `g_thread_try_new`.  `createOk` is the success of the inner
`pthread_create` call; the C code discards that result.  `errSlot` models
the `GError**` out-parameter as in `g_clear_error`.  Returns the handle
(`none` would be a null return, which the code never produces) and the
error-slot contents after the call. -/
def g_thread_try_new (createOk : Bool) (errSlot : Option (Option GError)) :
    Option GThread × Option (Option GError) :=
  let errSlot' : Option (Option GError) :=
    match errSlot with
    | none => none
    | some _ => some none
  let _ := createOk
  (some ⟨1⟩, errSlot')

/-- State of one thread handle together with counters of the join and
free (`delete`) side effects performed on it. -/
structure ThreadRefState where
  ref_count : Int
  joins : Nat
  frees : Nat
deriving DecidableEq, Repr

/-- Modelled from the spec: `add_ref` (glib `g_thread_ref`) belongs to the
spec's thread-handle contract but is absent from the shim source; it
increments the reference count and returns the same handle. -/
def g_thread_ref (s : ThreadRefState) : ThreadRefState :=
  ⟨s.ref_count + 1, s.joins, s.frees⟩

/-- C `g_thread_unref`: `__sync_sub_and_fetch(&ref_count, 1)`; when the
result is zero, `g_thread_join` then `delete` (counted in `joins` and
`frees`). -/
def g_thread_unref (s : ThreadRefState) : ThreadRefState :=
  if s.ref_count - 1 = 0 then
    ⟨s.ref_count - 1, s.joins + 1, s.frees + 1⟩
  else
    ⟨s.ref_count - 1, s.joins, s.frees⟩

/-- The handle state established by a successful `g_thread_try_new`:
`ref_count` 1, no join, no free yet. -/
def spawnState : ThreadRefState :=
  ⟨1, 0, 0⟩

/-! ## Monotonic clock -/

/-- `mach_timebase_info_data_t`: numerator and denominator of the ratio
from Mach ticks to nanoseconds. -/
structure Timebase where
  numer : Nat
  denom : Nat
deriving DecidableEq, Repr

/-- The normalization `g_get_monotonic_time` applies to the captured
timebase on first call: fold the nanosecond→microsecond division of 1000
into the ratio, then reduce the ratio to `1/d` when the denominator is a
multiple of the numerator.  (When it is not, the numerator is left in
place — and then ignored by the caller below.) -/
def normalize_timebase (tb : Timebase) : Timebase :=
  let tb1 : Timebase :=
    if tb.numer % 1000 = 0 then ⟨tb.numer / 1000, tb.denom⟩
    else ⟨tb.numer, tb.denom * 1000⟩
  if tb1.denom % tb1.numer = 0 then ⟨1, tb1.denom / tb1.numer⟩ else tb1

/-- C `g_get_monotonic_time`, given the raw timebase captured on first
call and the current `mach_absolute_time` tick count: the code returns
`ticks / denom` with the normalized denominator, never multiplying by the
normalized numerator. -/
def g_get_monotonic_time (tb : Timebase) (ticks : Nat) : Nat :=
  ticks / (normalize_timebase tb).denom

/-! ## File tests -/

/-- `access(2)` mode `F_OK`. -/
def F_OK : Nat := 0

/-- `access(2)` mode `X_OK`. -/
def X_OK : Nat := 1

def G_FILE_TEST_IS_REGULAR : Nat := 1
def G_FILE_TEST_IS_SYMLINK : Nat := 2
def G_FILE_TEST_IS_DIR : Nat := 4
def G_FILE_TEST_IS_EXECUTABLE : Nat := 8
def G_FILE_TEST_EXISTS : Nat := 16

/-- The `struct stat` facts `g_file_test` inspects. -/
structure StatInfo where
  isReg : Bool
  isDir : Bool
  isLnk : Bool
  ixoth : Bool
  ixusr : Bool
  ixgrp : Bool
deriving DecidableEq, Repr

/-- The filesystem oracle: results of the `access`, `stat` and `lstat`
system calls, plus the uid `getuid` reports. -/
structure FileSystem where
  accessOk : String → Nat → Bool
  statRes : String → Option StatInfo
  lstatRes : String → Option StatInfo
  uid : Nat

/-- One system call `g_file_test` issues against the filesystem. -/
inductive FsCall
  | access (path : String) (mode : Nat)
  | stat (path : String)
  | lstat (path : String)
deriving DecidableEq, Repr

/-- C `g_file_test`: `filename` is `none` for a null pointer.  Returns the
result together with the ordered list of system calls issued. -/
def g_file_test (filename : Option String) (test : Nat) (fs : FileSystem) :
    Nat × List FsCall :=
  match filename with
  | none => (0, [])
  | some name =>
      let l1 : List FsCall :=
        if test &&& G_FILE_TEST_EXISTS ≠ 0 then [.access name F_OK] else []
      if test &&& G_FILE_TEST_EXISTS ≠ 0 ∧ fs.accessOk name F_OK then
        (1, l1)
      else
        let l2 : List FsCall :=
          l1 ++ (if test &&& G_FILE_TEST_IS_EXECUTABLE ≠ 0 then [.access name X_OK] else [])
        let execOk : Prop := test &&& G_FILE_TEST_IS_EXECUTABLE ≠ 0 ∧ fs.accessOk name X_OK
        if execOk then
          if fs.uid ≠ 0 then (1, l2)
          else g_file_test_tail name test fs l2
        else
          g_file_test_tail name (test - (test &&& G_FILE_TEST_IS_EXECUTABLE)) fs l2
where
  /-- The symlink check and the `stat`-based block of `g_file_test`
  (everything after the two `access` checks), with `test` already holding
  the possibly-cleared `G_FILE_TEST_IS_EXECUTABLE` bit. -/
  g_file_test_tail (name : String) (test : Nat) (fs : FileSystem)
      (log : List FsCall) : Nat × List FsCall :=
    let l3 : List FsCall :=
      log ++ (if test &&& G_FILE_TEST_IS_SYMLINK ≠ 0 then [.lstat name] else [])
    let lnk : Bool :=
      match fs.lstatRes name with
      | some st => st.isLnk
      | none => false
    if test &&& G_FILE_TEST_IS_SYMLINK ≠ 0 ∧ lnk then
      (1, l3)
    else
      let statMask := G_FILE_TEST_IS_REGULAR ||| G_FILE_TEST_IS_DIR ||| G_FILE_TEST_IS_EXECUTABLE
      if test &&& statMask ≠ 0 then
        let l4 := l3 ++ [.stat name]
        match fs.statRes name with
        | some st =>
            if test &&& G_FILE_TEST_IS_REGULAR ≠ 0 ∧ st.isReg then (1, l4)
            else if test &&& G_FILE_TEST_IS_DIR ≠ 0 ∧ st.isDir then (1, l4)
            else if test &&& G_FILE_TEST_IS_EXECUTABLE ≠ 0 ∧ (st.ixoth ∨ st.ixusr ∨ st.ixgrp) then (1, l4)
            else (0, l4)
        | none => (0, l4)
      else
        (0, l3)

/-! ## The concurrent first-use race

`g_mutex_get_impl`, `g_rec_mutex_get_impl`, `g_cond_get_impl` and
`g_private_get_impl` share their control flow exactly; the step relation
below models any of them, parameterized by the construction-routine kind.
The shared-memory accesses of the C function are the initial load of the
slot, the compare-and-swap, and the reload after a failed compare-and-swap;
each is one atomic step.  The speculative allocation and the loser's free
touch only the (thread-safe) allocator and the loser's private object, and
are their own steps. -/

/-- Program points of one thread running a `*_get_impl` function. -/
inductive TState
  | start
  | allocating
  | casPending (impl : Nat)
  | loserFree (impl : Nat)
  | reload
  | ret (impl : Nat)
deriving DecidableEq, Repr

/-- A configuration of the race: the handle's ownership slot, the
allocator, and the program point of each of the `n` threads. -/
structure Config (n : Nat) where
  slot : Option Nat
  alloc : AllocState
  tstate : Fin n → TState

/-- The initial configuration: a zero-initialized handle, a fresh
allocator, every thread about to call the `*_get_impl` function. -/
def initConfig (n : Nat) : Config n :=
  ⟨none, ⟨0, [], []⟩, fun _ => .start⟩

/-- One atomic step of one thread running the `*_get_impl` function whose
construction routine has kind `k`. -/
inductive GetImplStep (k : ObjKind) {n : Nat} : Config n → Config n → Prop
  /-- `impl = handle->p` read a published object: return it (fast path). -/
  | loadFound (c : Config n) (t : Fin n) (impl : Nat)
      (h1 : c.tstate t = .start) (h2 : c.slot = some impl) :
      GetImplStep k c ⟨c.slot, c.alloc, Function.update c.tstate t (.ret impl)⟩
  /-- `impl = handle->p` read the null sentinel: go allocate. -/
  | loadMissing (c : Config n) (t : Fin n)
      (h1 : c.tstate t = .start) (h2 : c.slot = none) :
      GetImplStep k c ⟨c.slot, c.alloc, Function.update c.tstate t .allocating⟩
  /-- `impl = *_impl_new()`: speculatively allocate a fresh object. -/
  | allocStep (c : Config n) (t : Fin n)
      (h1 : c.tstate t = .allocating) :
      GetImplStep k c ⟨c.slot, (implNew k c.alloc).2,
        Function.update c.tstate t (.casPending (implNew k c.alloc).1)⟩
  /-- The compare-and-swap found the sentinel and published `impl`. -/
  | casWon (c : Config n) (t : Fin n) (impl : Nat)
      (h1 : c.tstate t = .casPending impl) (h2 : c.slot = none) :
      GetImplStep k c ⟨some impl, c.alloc, Function.update c.tstate t (.ret impl)⟩
  /-- The compare-and-swap returned a non-null previous value: lost. -/
  | casLost (c : Config n) (t : Fin n) (impl w : Nat)
      (h1 : c.tstate t = .casPending impl) (h2 : c.slot = some w) :
      GetImplStep k c ⟨c.slot, c.alloc, Function.update c.tstate t (.loserFree impl)⟩
  /-- `*_impl_free(impl)`: the loser destroys its speculative object. -/
  | freeStep (c : Config n) (t : Fin n) (impl : Nat)
      (h1 : c.tstate t = .loserFree impl) :
      GetImplStep k c ⟨c.slot, implFree impl c.alloc, Function.update c.tstate t .reload⟩
  /-- `impl = handle->p`: the loser reloads the published object and
  returns it. -/
  | reloadStep (c : Config n) (t : Fin n) (w : Nat)
      (h1 : c.tstate t = .reload) (h2 : c.slot = some w) :
      GetImplStep k c ⟨c.slot, c.alloc, Function.update c.tstate t (.ret w)⟩

/-- The speculative object a thread currently holds outside the slot
(between its allocation and either its publication or its free). -/
def pendingObj {n : Nat} (c : Config n) (t : Fin n) : Option Nat :=
  match c.tstate t with
  | .casPending i => some i
  | .loserFree i => some i
  | _ => none

/-- The inductive invariant of the race, for runs of `GetImplStep k` from
`initConfig`. -/
structure Inv {n : Nat} (k : ObjKind) (c : Config n) : Prop where
  pending_lt : ∀ t i, pendingObj c t = some i → i < c.alloc.nextId
  pending_not_freed : ∀ t i, pendingObj c t = some i → i ∉ c.alloc.freed
  pending_ne_slot : ∀ t i, pendingObj c t = some i → c.slot ≠ some i
  pending_uniq : ∀ t t' i, pendingObj c t = some i → pendingObj c t' = some i → t = t'
  ret_slot : ∀ t r, c.tstate t = .ret r → c.slot = some r
  slot_lt : ∀ w, c.slot = some w → w < c.alloc.nextId
  slot_not_freed : ∀ w, c.slot = some w → w ∉ c.alloc.freed
  freed_lt : ∀ i, i ∈ c.alloc.freed → i < c.alloc.nextId
  covered : ∀ i, i < c.alloc.nextId →
    i ∈ c.alloc.freed ∨ c.slot = some i ∨ ∃ t, pendingObj c t = some i
  created_eq : c.alloc.created = (List.range c.alloc.nextId).reverse.map (fun i => (i, k))

theorem inv_init (k : ObjKind) (n : Nat) : Inv k (initConfig n) := by
  refine ⟨?_, ?_, ?_, ?_, ?_, ?_, ?_, ?_, ?_, ?_⟩ <;>
    simp [initConfig, pendingObj, AllocState.live]

theorem inv_step {n : Nat} {k : ObjKind} {c c' : Config n}
    (hs : GetImplStep k c c') (hI : Inv k c) : Inv k c' := by
  cases hs with
  | loadFound t impl h1 h2 =>
      have hpend : ∀ t', pendingObj
          ⟨c.slot, c.alloc, Function.update c.tstate t (.ret impl)⟩ t' = pendingObj c t' := by
        intro t'
        by_cases ht : t' = t
        · subst ht; simp [pendingObj, Function.update_same, h1]
        · simp [pendingObj, Function.update_noteq ht]
      refine ⟨?_, ?_, ?_, ?_, ?_, ?_, ?_, ?_, ?_, ?_⟩
      · intro t' i hp; rw [hpend t'] at hp; exact hI.pending_lt t' i hp
      · intro t' i hp; rw [hpend t'] at hp; exact hI.pending_not_freed t' i hp
      · intro t' i hp; rw [hpend t'] at hp; exact hI.pending_ne_slot t' i hp
      · intro t' t'' i hp hp'; rw [hpend t'] at hp; rw [hpend t''] at hp'
        exact hI.pending_uniq t' t'' i hp hp'
      · intro t' r hr
        by_cases ht : t' = t
        · rw [ht] at hr
          have hr2 : Function.update c.tstate t (TState.ret impl) t = TState.ret r := hr
          rw [Function.update_same] at hr2
          cases hr2; exact h2
        · have hr2 : Function.update c.tstate t (TState.ret impl) t' = TState.ret r := hr
          rw [Function.update_noteq ht] at hr2
          exact hI.ret_slot t' r hr2
      · exact hI.slot_lt
      · exact hI.slot_not_freed
      · exact hI.freed_lt
      · intro i hi
        rcases hI.covered i hi with h | h | ⟨t'', h⟩
        · exact Or.inl h
        · exact Or.inr (Or.inl h)
        · exact Or.inr (Or.inr ⟨t'', (hpend t'').symm ▸ h⟩)
      · exact hI.created_eq
  | loadMissing t h1 h2 =>
      have hpend : ∀ t', pendingObj
          ⟨c.slot, c.alloc, Function.update c.tstate t .allocating⟩ t' = pendingObj c t' := by
        intro t'
        by_cases ht : t' = t
        · subst ht; simp [pendingObj, Function.update_same, h1]
        · simp [pendingObj, Function.update_noteq ht]
      refine ⟨?_, ?_, ?_, ?_, ?_, ?_, ?_, ?_, ?_, ?_⟩
      · intro t' i hp; rw [hpend t'] at hp; exact hI.pending_lt t' i hp
      · intro t' i hp; rw [hpend t'] at hp; exact hI.pending_not_freed t' i hp
      · intro t' i hp; rw [hpend t'] at hp; exact hI.pending_ne_slot t' i hp
      · intro t' t'' i hp hp'; rw [hpend t'] at hp; rw [hpend t''] at hp'
        exact hI.pending_uniq t' t'' i hp hp'
      · intro t' r hr
        by_cases ht : t' = t
        · rw [ht] at hr
          have hr2 : Function.update c.tstate t TState.allocating t = TState.ret r := hr
          rw [Function.update_same] at hr2
          cases hr2
        · have hr2 : Function.update c.tstate t TState.allocating t' = TState.ret r := hr
          rw [Function.update_noteq ht] at hr2
          exact hI.ret_slot t' r hr2
      · exact hI.slot_lt
      · exact hI.slot_not_freed
      · exact hI.freed_lt
      · intro i hi
        rcases hI.covered i hi with h | h | ⟨t'', h⟩
        · exact Or.inl h
        · exact Or.inr (Or.inl h)
        · exact Or.inr (Or.inr ⟨t'', (hpend t'').symm ▸ h⟩)
      · exact hI.created_eq
  | allocStep t h1 =>
      have hpend : ∀ t', t' ≠ t → pendingObj
          ⟨c.slot, (implNew k c.alloc).2,
            Function.update c.tstate t (.casPending (implNew k c.alloc).1)⟩ t' = pendingObj c t' := by
        intro t' ht
        simp [pendingObj, Function.update_noteq ht]
      have hpt : pendingObj
          ⟨c.slot, (implNew k c.alloc).2,
            Function.update c.tstate t (.casPending (implNew k c.alloc).1)⟩ t
          = some c.alloc.nextId := by
        simp [pendingObj, Function.update_same, implNew]
      have hpendt : pendingObj c t = none := by simp [pendingObj, h1]
      refine ⟨?_, ?_, ?_, ?_, ?_, ?_, ?_, ?_, ?_, ?_⟩
      · intro t' i hp
        by_cases ht : t' = t
        · subst ht; rw [hpt] at hp; cases hp
          simp [implNew]
        · rw [hpend t' ht] at hp
          have := hI.pending_lt t' i hp
          simp only [implNew]
          omega
      · intro t' i hp
        by_cases ht : t' = t
        · subst ht; rw [hpt] at hp; cases hp
          intro hmem
          exact absurd (hI.freed_lt _ hmem) (by omega)
        · rw [hpend t' ht] at hp
          exact hI.pending_not_freed t' i hp
      · intro t' i hp
        by_cases ht : t' = t
        · subst ht; rw [hpt] at hp; cases hp
          intro hslot
          exact absurd (hI.slot_lt _ hslot) (by omega)
        · rw [hpend t' ht] at hp
          exact hI.pending_ne_slot t' i hp
      · intro t' t'' i hp hp'
        by_cases ht : t' = t <;> by_cases ht' : t'' = t
        · rw [ht, ht']
        · subst ht; rw [hpt] at hp; cases hp
          rw [hpend t'' ht'] at hp'
          exact absurd (hI.pending_lt t'' _ hp') (by omega)
        · subst ht'; rw [hpt] at hp'; cases hp'
          rw [hpend t' ht] at hp
          exact absurd (hI.pending_lt t' _ hp) (by omega)
        · rw [hpend t' ht] at hp; rw [hpend t'' ht'] at hp'
          exact hI.pending_uniq t' t'' i hp hp'
      · intro t' r hr
        by_cases ht : t' = t
        · rw [ht] at hr
          have hr2 : Function.update c.tstate t (TState.casPending (implNew k c.alloc).1) t
              = TState.ret r := hr
          rw [Function.update_same] at hr2
          cases hr2
        · have hr2 : Function.update c.tstate t (TState.casPending (implNew k c.alloc).1) t'
              = TState.ret r := hr
          rw [Function.update_noteq ht] at hr2
          exact hI.ret_slot t' r hr2
      · intro w hw
        have := hI.slot_lt w hw
        simp only [implNew]
        omega
      · intro w hw
        exact hI.slot_not_freed w hw
      · intro i hmem
        have := hI.freed_lt i hmem
        simp only [implNew]
        omega
      · intro i hi
        simp only [implNew] at hi
        by_cases hlt : i < c.alloc.nextId
        · rcases hI.covered i hlt with h | h | ⟨t'', h⟩
          · exact Or.inl h
          · exact Or.inr (Or.inl h)
          · refine Or.inr (Or.inr ⟨t'', ?_⟩)
            have ht'' : t'' ≠ t := by
              intro he; rw [he, hpendt] at h; cases h
            rw [hpend t'' ht'']; exact h
        · have hieq : i = c.alloc.nextId := by omega
          subst hieq
          exact Or.inr (Or.inr ⟨t, hpt⟩)
      · show (implNew k c.alloc).2.created = _
        simp only [implNew]
        rw [hI.created_eq]
        simp [List.range_succ]
  | casWon t impl h1 h2 =>
      have hpt : pendingObj c t = some impl := by simp [pendingObj, h1]
      have hpend : ∀ t', t' ≠ t → pendingObj
          ⟨some impl, c.alloc, Function.update c.tstate t (.ret impl)⟩ t' = pendingObj c t' := by
        intro t' ht
        simp [pendingObj, Function.update_noteq ht]
      have hpt' : pendingObj
          ⟨some impl, c.alloc, Function.update c.tstate t (.ret impl)⟩ t = none := by
        simp [pendingObj, Function.update_same]
      refine ⟨?_, ?_, ?_, ?_, ?_, ?_, ?_, ?_, ?_, ?_⟩
      · intro t' i hp
        by_cases ht : t' = t
        · subst ht; rw [hpt'] at hp; cases hp
        · rw [hpend t' ht] at hp; exact hI.pending_lt t' i hp
      · intro t' i hp
        by_cases ht : t' = t
        · subst ht; rw [hpt'] at hp; cases hp
        · rw [hpend t' ht] at hp; exact hI.pending_not_freed t' i hp
      · intro t' i hp
        by_cases ht : t' = t
        · subst ht; rw [hpt'] at hp; cases hp
        · rw [hpend t' ht] at hp
          intro hslot
          cases hslot
          exact ht (hI.pending_uniq t' t impl hp hpt)
      · intro t' t'' i hp hp'
        by_cases ht : t' = t
        · subst ht; rw [hpt'] at hp; cases hp
        · by_cases ht' : t'' = t
          · subst ht'; rw [hpt'] at hp'; cases hp'
          · rw [hpend t' ht] at hp; rw [hpend t'' ht'] at hp'
            exact hI.pending_uniq t' t'' i hp hp'
      · intro t' r hr
        by_cases ht : t' = t
        · rw [ht] at hr
          have hr2 : Function.update c.tstate t (TState.ret impl) t = TState.ret r := hr
          rw [Function.update_same] at hr2
          cases hr2; rfl
        · have hr2 : Function.update c.tstate t (TState.ret impl) t' = TState.ret r := hr
          rw [Function.update_noteq ht] at hr2
          rw [hI.ret_slot t' r hr2] at h2; cases h2
      · intro w hw
        cases hw
        exact hI.pending_lt t impl hpt
      · intro w hw
        cases hw
        exact hI.pending_not_freed t impl hpt
      · exact hI.freed_lt
      · intro i hi
        rcases hI.covered i hi with h | h | ⟨t'', h⟩
        · exact Or.inl h
        · rw [h] at h2; cases h2
        · by_cases ht'' : t'' = t
          · subst ht''; rw [hpt] at h; cases h
            exact Or.inr (Or.inl rfl)
          · exact Or.inr (Or.inr ⟨t'', (hpend t'' ht'').symm ▸ h⟩)
      · exact hI.created_eq
  | casLost t impl w h1 h2 =>
      have hpend : ∀ t', pendingObj
          ⟨c.slot, c.alloc, Function.update c.tstate t (.loserFree impl)⟩ t' = pendingObj c t' := by
        intro t'
        by_cases ht : t' = t
        · subst ht; simp [pendingObj, Function.update_same, h1]
        · simp [pendingObj, Function.update_noteq ht]
      refine ⟨?_, ?_, ?_, ?_, ?_, ?_, ?_, ?_, ?_, ?_⟩
      · intro t' i hp; rw [hpend t'] at hp; exact hI.pending_lt t' i hp
      · intro t' i hp; rw [hpend t'] at hp; exact hI.pending_not_freed t' i hp
      · intro t' i hp; rw [hpend t'] at hp; exact hI.pending_ne_slot t' i hp
      · intro t' t'' i hp hp'; rw [hpend t'] at hp; rw [hpend t''] at hp'
        exact hI.pending_uniq t' t'' i hp hp'
      · intro t' r hr
        by_cases ht : t' = t
        · rw [ht] at hr
          have hr2 : Function.update c.tstate t (TState.loserFree impl) t = TState.ret r := hr
          rw [Function.update_same] at hr2
          cases hr2
        · have hr2 : Function.update c.tstate t (TState.loserFree impl) t' = TState.ret r := hr
          rw [Function.update_noteq ht] at hr2
          exact hI.ret_slot t' r hr2
      · exact hI.slot_lt
      · exact hI.slot_not_freed
      · exact hI.freed_lt
      · intro i hi
        rcases hI.covered i hi with h | h | ⟨t'', h⟩
        · exact Or.inl h
        · exact Or.inr (Or.inl h)
        · exact Or.inr (Or.inr ⟨t'', (hpend t'').symm ▸ h⟩)
      · exact hI.created_eq
  | freeStep t impl h1 =>
      have hpt : pendingObj c t = some impl := by simp [pendingObj, h1]
      have hpend : ∀ t', t' ≠ t → pendingObj
          ⟨c.slot, implFree impl c.alloc, Function.update c.tstate t .reload⟩ t' = pendingObj c t' := by
        intro t' ht
        simp [pendingObj, Function.update_noteq ht]
      have hpt' : pendingObj
          ⟨c.slot, implFree impl c.alloc, Function.update c.tstate t .reload⟩ t = none := by
        simp [pendingObj, Function.update_same]
      refine ⟨?_, ?_, ?_, ?_, ?_, ?_, ?_, ?_, ?_, ?_⟩
      · intro t' i hp
        by_cases ht : t' = t
        · subst ht; rw [hpt'] at hp; cases hp
        · rw [hpend t' ht] at hp
          exact hI.pending_lt t' i hp
      · intro t' i hp
        by_cases ht : t' = t
        · subst ht; rw [hpt'] at hp; cases hp
        · rw [hpend t' ht] at hp
          intro hmem
          rcases List.mem_cons.mp hmem with he | hmem'
          · subst he
            exact ht (hI.pending_uniq t' t i hp hpt)
          · exact hI.pending_not_freed t' i hp hmem'
      · intro t' i hp
        by_cases ht : t' = t
        · subst ht; rw [hpt'] at hp; cases hp
        · rw [hpend t' ht] at hp
          exact hI.pending_ne_slot t' i hp
      · intro t' t'' i hp hp'
        by_cases ht : t' = t
        · subst ht; rw [hpt'] at hp; cases hp
        · by_cases ht' : t'' = t
          · subst ht'; rw [hpt'] at hp'; cases hp'
          · rw [hpend t' ht] at hp; rw [hpend t'' ht'] at hp'
            exact hI.pending_uniq t' t'' i hp hp'
      · intro t' r hr
        by_cases ht : t' = t
        · rw [ht] at hr
          have hr2 : Function.update c.tstate t TState.reload t = TState.ret r := hr
          rw [Function.update_same] at hr2
          cases hr2
        · have hr2 : Function.update c.tstate t TState.reload t' = TState.ret r := hr
          rw [Function.update_noteq ht] at hr2
          exact hI.ret_slot t' r hr2
      · intro w hw; exact hI.slot_lt w hw
      · intro w hw
        intro hmem
        rcases List.mem_cons.mp hmem with he | hmem'
        · subst he
          exact hI.pending_ne_slot t w hpt hw
        · exact hI.slot_not_freed w hw hmem'
      · intro i hmem
        rcases List.mem_cons.mp hmem with he | hmem'
        · subst he
          exact hI.pending_lt t i hpt
        · exact hI.freed_lt i hmem'
      · intro i hi
        rcases hI.covered i hi with h | h | ⟨t'', h⟩
        · exact Or.inl (List.mem_cons.mpr (Or.inr h))
        · exact Or.inr (Or.inl h)
        · by_cases ht'' : t'' = t
          · subst ht''; rw [hpt] at h; cases h
            exact Or.inl (List.mem_cons.mpr (Or.inl rfl))
          · exact Or.inr (Or.inr ⟨t'', (hpend t'' ht'').symm ▸ h⟩)
      · exact hI.created_eq
  | reloadStep t w h1 h2 =>
      have hpend : ∀ t', pendingObj
          ⟨c.slot, c.alloc, Function.update c.tstate t (.ret w)⟩ t' = pendingObj c t' := by
        intro t'
        by_cases ht : t' = t
        · subst ht; simp [pendingObj, Function.update_same, h1]
        · simp [pendingObj, Function.update_noteq ht]
      refine ⟨?_, ?_, ?_, ?_, ?_, ?_, ?_, ?_, ?_, ?_⟩
      · intro t' i hp; rw [hpend t'] at hp; exact hI.pending_lt t' i hp
      · intro t' i hp; rw [hpend t'] at hp; exact hI.pending_not_freed t' i hp
      · intro t' i hp; rw [hpend t'] at hp; exact hI.pending_ne_slot t' i hp
      · intro t' t'' i hp hp'; rw [hpend t'] at hp; rw [hpend t''] at hp'
        exact hI.pending_uniq t' t'' i hp hp'
      · intro t' r hr
        by_cases ht : t' = t
        · rw [ht] at hr
          have hr2 : Function.update c.tstate t (TState.ret w) t = TState.ret r := hr
          rw [Function.update_same] at hr2
          cases hr2; exact h2
        · have hr2 : Function.update c.tstate t (TState.ret w) t' = TState.ret r := hr
          rw [Function.update_noteq ht] at hr2
          exact hI.ret_slot t' r hr2
      · exact hI.slot_lt
      · exact hI.slot_not_freed
      · exact hI.freed_lt
      · intro i hi
        rcases hI.covered i hi with h | h | ⟨t'', h⟩
        · exact Or.inl h
        · exact Or.inr (Or.inl h)
        · exact Or.inr (Or.inr ⟨t'', (hpend t'').symm ▸ h⟩)
      · exact hI.created_eq

theorem inv_reach {n : Nat} {k : ObjKind} {c : Config n}
    (h : Relation.ReflTransGen (GetImplStep k) (initConfig n) c) : Inv k c := by
  induction h with
  | refl => exact inv_init k n
  | tail _ hs ih => exact inv_step hs ih

/-- C1: for every `n` threads concurrently calling a `*_get_impl` function
(`g_mutex_get_impl`, `g_rec_mutex_get_impl`, `g_cond_get_impl`,
`g_private_get_impl`) on the same zero-initialized handle for the first
time, in any completed interleaving exactly one OS object is ultimately
live — the one in the ownership slot — and all `n` calls return that same
object. -/
theorem get_impl_race_exactly_once (k : ObjKind) {n : Nat} (c : Config n) (hn : 0 < n)
    (hreach : Relation.ReflTransGen (GetImplStep k) (initConfig n) c)
    (hdone : ∀ t, ∃ r, c.tstate t = TState.ret r) :
    ∃ w, c.slot = some w ∧ (∀ t, c.tstate t = TState.ret w) ∧
      (∀ i, c.alloc.live i ↔ i = w) := by
  have hI := inv_reach hreach
  obtain ⟨r0, hr0⟩ := hdone ⟨0, hn⟩
  have hslot : c.slot = some r0 := hI.ret_slot _ r0 hr0
  refine ⟨r0, hslot, ?_, ?_⟩
  · intro t
    obtain ⟨r, hr⟩ := hdone t
    have h2 := hI.ret_slot t r hr
    rw [hslot] at h2
    cases h2
    exact hr
  · intro i
    simp only [AllocState.live]
    constructor
    · rintro ⟨hlt, hnf⟩
      rcases hI.covered i hlt with h | h | ⟨t'', h⟩
      · exact absurd h hnf
      · rw [hslot] at h
        cases h
        rfl
      · obtain ⟨r, hr⟩ := hdone t''
        rw [show pendingObj c t'' = none from by simp [pendingObj, hr]] at h
        cases h
    · rintro rfl
      exact ⟨hI.slot_lt i hslot, hI.slot_not_freed i hslot⟩

/-- Witness for C1: a complete two-thread race in which thread 0 wins the
compare-and-swap and thread 1 loses, frees its speculative object and
returns the winner's. -/
theorem get_impl_race_exactly_once_witness :
    ∃ c : Config 2,
      Relation.ReflTransGen (GetImplStep ObjKind.mutex) (initConfig 2) c ∧
      (∀ t, ∃ r, c.tstate t = TState.ret r) ∧
      ∃ w, c.slot = some w ∧ (∀ t, c.tstate t = TState.ret w) ∧
        (∀ i, c.alloc.live i ↔ i = w) := by
  have r0 : Relation.ReflTransGen (GetImplStep ObjKind.mutex) (initConfig 2) (initConfig 2) :=
    Relation.ReflTransGen.refl
  have r1 := r0.tail (GetImplStep.loadMissing _ 0 (by decide) (by decide))
  have r2 := r1.tail (GetImplStep.allocStep _ 0 (by decide))
  have r3 := r2.tail (GetImplStep.loadMissing _ 1 (by decide) (by decide))
  have r4 := r3.tail (GetImplStep.allocStep _ 1 (by decide))
  have r5 := r4.tail (GetImplStep.casWon _ 0 0 (by decide) (by decide))
  have r6 := r5.tail (GetImplStep.casLost _ 1 1 0 (by decide) (by decide))
  have r7 := r6.tail (GetImplStep.freeStep _ 1 1 (by decide))
  have r8 := r7.tail (GetImplStep.reloadStep _ 1 0 (by decide) (by decide))
  refine ⟨_, r8, ?_, get_impl_race_exactly_once ObjKind.mutex _ (by decide) r8 ?_⟩
  all_goals
    intro t
    fin_cases t
    · exact ⟨0, by decide⟩
    · exact ⟨0, by decide⟩

/-- C2: once the ownership slot is non-sentinel, every step of a
concurrent `*_get_impl` call leaves it holding the same pointer, and
`g_mutex_lock`/`g_mutex_unlock`, `g_rec_mutex_lock`/`g_rec_mutex_unlock`,
`g_cond_wait`/`g_cond_signal`/`g_cond_broadcast` and
`g_private_get`/`g_private_set` all leave a non-sentinel slot unchanged:
it never reverts to the sentinel nor moves to a different object. -/
theorem slot_never_changes (k : ObjKind) {n : Nat} (c c' : Config n) (w : Nat)
    (hstep : GetImplStep k c c') (hw : c.slot = some w) :
    c'.slot = some w ∧
    (∀ a, (g_mutex_lock (some w) a).2.1 = some w) ∧
    (∀ a, (g_mutex_unlock (some w) a).2.1 = some w) ∧
    (∀ a, (g_rec_mutex_lock (some w) a).2.1 = some w) ∧
    (∀ a, (g_rec_mutex_unlock (some w) a).2.1 = some w) ∧
    (∀ ms a, (g_cond_wait (some w) ms a).2.1 = some w) ∧
    (∀ cs a, (g_cond_wait cs (some w) a).2.2.1 = some w) ∧
    (∀ a, (g_cond_signal (some w) a).2.1 = some w) ∧
    (∀ a, (g_cond_broadcast (some w) a).2.1 = some w) ∧
    (∀ tid nt a tls, ((g_private_get tid ⟨⟨some w, nt⟩, a, tls⟩).2).key.p = some w) ∧
    (∀ tid v nt a tls, (g_private_set tid v ⟨⟨some w, nt⟩, a, tls⟩).key.p = some w) := by
  refine ⟨?_, fun a => rfl, fun a => rfl, fun a => rfl, fun a => rfl, ?_, ?_,
    fun a => rfl, fun a => rfl, fun tid nt a tls => rfl, fun tid v nt a tls => rfl⟩
  · cases hstep with
    | loadFound t impl h1 h2 => exact hw
    | loadMissing t h1 h2 => rw [h2] at hw; cases hw
    | allocStep t h1 => exact hw
    | casWon t impl h1 h2 => rw [h2] at hw; cases hw
    | casLost t impl w' h1 h2 => exact hw
    | freeStep t impl h1 => exact hw
    | reloadStep t w' h1 h2 => exact hw
  · intro ms a
    rcases hm : g_mutex_get_impl ms a with ⟨mi, ms', a''⟩
    simp [g_cond_wait, g_cond_get_impl, hm]
  · intro cs a
    rcases hc : g_cond_get_impl cs a with ⟨ci, cs', a'⟩
    simp [g_cond_wait, hc, g_mutex_get_impl]

/-- Witness for C2: a fast-path load on a handle whose slot already holds
object 5 leaves the slot unchanged. -/
theorem slot_never_changes_witness :
    ∃ c' : Config 1,
      GetImplStep ObjKind.mutex ⟨some 5, ⟨6, [], []⟩, fun _ => TState.start⟩ c' ∧
      c'.slot = some 5 := by
  have hstep := GetImplStep.loadFound (k := ObjKind.mutex) (n := 1)
    ⟨some 5, ⟨6, [], []⟩, fun _ => TState.start⟩ 0 5 rfl rfl
  exact ⟨_, hstep, (slot_never_changes ObjKind.mutex _ _ 5 hstep rfl).1⟩

/-- C3: in every reachable configuration in which a thread's
compare-and-swap is about to fail (its speculative object `impl` is
pending while the slot already holds `w`), the code path it then takes
frees `impl`, leaves the published object `w` live in the slot, and
returns `w` — the loser leaks nothing and exactly the published
allocation survives. -/
theorem cas_failure_cleanup (k : ObjKind) {n : Nat} (c : Config n) (t : Fin n)
    (impl w : Nat)
    (hreach : Relation.ReflTransGen (GetImplStep k) (initConfig n) c)
    (ht : c.tstate t = TState.casPending impl) (hw : c.slot = some w) :
    impl ≠ w ∧
    ∃ c', Relation.ReflTransGen (GetImplStep k) c c' ∧
      c'.slot = some w ∧ c'.tstate t = TState.ret w ∧
      impl ∈ c'.alloc.freed ∧ ¬ c'.alloc.live impl ∧ c'.alloc.live w := by
  have hI := inv_reach hreach
  have hpt : pendingObj c t = some impl := by simp [pendingObj, ht]
  have hne : impl ≠ w := by
    intro he
    exact hI.pending_ne_slot t impl hpt (he ▸ hw)
  have s1 := GetImplStep.casLost (k := k) c t impl w ht hw
  have s2 := GetImplStep.freeStep (k := k)
    ⟨c.slot, c.alloc, Function.update c.tstate t (TState.loserFree impl)⟩ t impl
    (by simp [Function.update_same])
  have s3 := GetImplStep.reloadStep (k := k)
    ⟨c.slot, implFree impl c.alloc,
      Function.update (Function.update c.tstate t (TState.loserFree impl)) t TState.reload⟩ t w
    (by simp [Function.update_same]) hw
  refine ⟨hne, _, Relation.ReflTransGen.tail
    (Relation.ReflTransGen.tail
      (Relation.ReflTransGen.tail Relation.ReflTransGen.refl s1) s2) s3,
    hw, by simp [Function.update_same], List.mem_cons_self _ _, ?_, ?_⟩
  · rintro ⟨hlt, hnf⟩
    exact hnf (List.mem_cons_self _ _)
  · refine ⟨hI.slot_lt w hw, ?_⟩
    intro hmem
    rcases List.mem_cons.mp hmem with he | hmem'
    · exact hne he.symm
    · exact hI.slot_not_freed w hw hmem'

/-- Witness for C3: in the two-thread race, after thread 0 publishes
object 0, thread 1 holds speculative object 1 with the compare-and-swap
about to fail; it frees object 1 and returns object 0. -/
theorem cas_failure_cleanup_witness :
    ∃ c : Config 2,
      Relation.ReflTransGen (GetImplStep ObjKind.mutex) (initConfig 2) c ∧
      c.tstate 1 = TState.casPending 1 ∧ c.slot = some 0 ∧
      (1 ≠ 0 ∧
        ∃ c', Relation.ReflTransGen (GetImplStep ObjKind.mutex) c c' ∧
          c'.slot = some 0 ∧ c'.tstate 1 = TState.ret 0 ∧
          1 ∈ c'.alloc.freed ∧ ¬ c'.alloc.live 1 ∧ c'.alloc.live 0) := by
  have r0 : Relation.ReflTransGen (GetImplStep ObjKind.mutex) (initConfig 2) (initConfig 2) :=
    Relation.ReflTransGen.refl
  have r1 := r0.tail (GetImplStep.loadMissing _ 0 (by decide) (by decide))
  have r2 := r1.tail (GetImplStep.allocStep _ 0 (by decide))
  have r3 := r2.tail (GetImplStep.loadMissing _ 1 (by decide) (by decide))
  have r4 := r3.tail (GetImplStep.allocStep _ 1 (by decide))
  have r5 := r4.tail (GetImplStep.casWon _ 0 0 (by decide) (by decide))
  exact ⟨_, r5, by decide, by decide,
    cas_failure_cleanup ObjKind.mutex _ 1 1 0 r5 (by decide) (by decide)⟩

/-- C4: a handle explicitly constructed by `g_mutex_init` and a
zero-initialized handle allocated lazily on first use are
indistinguishable: from the same allocator state both paths produce the
identical slot and allocator (both construct via `g_mutex_impl_new`), and
on an already-allocated handle `g_mutex_get_impl` returns the stored
object without allocating or changing anything, with `g_mutex_lock` and
`g_mutex_unlock` delegating to exactly that object. -/
theorem init_lazy_indistinguishable (a : AllocState) (impl : Nat) :
    ((g_mutex_get_impl none a).2 = g_mutex_init a) ∧
    ((g_mutex_get_impl none a).1 = (g_mutex_impl_new a).1) ∧
    (g_mutex_init a = (some (g_mutex_impl_new a).1, (g_mutex_impl_new a).2)) ∧
    (g_mutex_get_impl (some impl) a = (impl, some impl, a)) ∧
    (g_mutex_lock (some impl) a = (impl, some impl, a)) ∧
    (g_mutex_unlock (some impl) a = (impl, some impl, a)) :=
  ⟨rfl, rfl, rfl, rfl, rfl, rfl⟩

/-- C5 counterexample: with the OS thread creation failing
(`createOk = false`), `g_thread_try_new` still returns a handle with
reference count 1 and leaves the error slot cleared to no-error — it does
not return a null handle, and it does not populate the error with failure
detail, refuting the claim's failure branch. -/
theorem g_thread_try_new_cex :
    (g_thread_try_new false (some (some ⟨1, 2, "boom"⟩))).1 = some ⟨1⟩ ∧
    (g_thread_try_new false (some (some ⟨1, 2, "boom"⟩))).2 = some none :=
  ⟨rfl, rfl⟩

/-- C5 amended: `g_thread_try_new` first unconditionally sets the error
out-parameter (when non-null) to the no-error value, and then always
returns a handle with reference count 1, ignoring the result of the OS
thread creation; it never reports a failure. -/
theorem g_thread_try_new_spec (createOk : Bool) (errSlot : Option (Option GError)) :
    g_thread_try_new createOk errSlot = (some ⟨1⟩, errSlot.map fun _ => none) := by
  cases errSlot <;> rfl

theorem g_thread_ref_iterate (n : Nat) :
    g_thread_ref^[n] spawnState = ⟨1 + n, 0, 0⟩ := by
  induction n with
  | zero => rfl
  | succ n ih =>
      rw [Function.iterate_succ_apply', ih]
      simp only [g_thread_ref]
      congr 1

theorem g_thread_unref_iterate (j f : Nat) (k : Nat) (m : Int) (hk : (k : Int) < m) :
    g_thread_unref^[k] ⟨m, j, f⟩ = ⟨m - k, j, f⟩ := by
  induction k generalizing m with
  | zero => simp
  | succ k ih =>
      rw [Function.iterate_succ_apply]
      have hm : m - 1 ≠ 0 := by omega
      rw [show g_thread_unref ⟨m, j, f⟩ = ⟨m - 1, j, f⟩ from by simp [g_thread_unref, hm]]
      rw [ih (m - 1) (by omega)]
      congr 1
      push_cast
      ring

/-- C6: `g_thread_unref` decrements the reference count by one; it joins
and frees exactly when the count reaches zero (`ref_count` was 1), and
performs neither otherwise; starting from the count of 1 established by
`g_thread_try_new` (`spawnState`), `n` `g_thread_ref` calls followed by
`n + 1` `g_thread_unref` calls produce exactly one join and one free. -/
theorem g_thread_unref_counts (n : Nat) (s : ThreadRefState) :
    ((g_thread_unref s).ref_count = s.ref_count - 1) ∧
    ((g_thread_unref s).joins = s.joins + (if s.ref_count = 1 then 1 else 0)) ∧
    ((g_thread_unref s).frees = s.frees + (if s.ref_count = 1 then 1 else 0)) ∧
    (g_thread_unref^[n + 1] (g_thread_ref^[n] spawnState) = ⟨0, 1, 1⟩) := by
  refine ⟨?_, ?_, ?_, ?_⟩
  · unfold g_thread_unref
    split <;> rfl
  · by_cases h : s.ref_count = 1
    · have h' : s.ref_count - 1 = 0 := by omega
      simp [g_thread_unref, h, h']
    · have h' : s.ref_count - 1 ≠ 0 := by omega
      simp [g_thread_unref, h, h']
  · by_cases h : s.ref_count = 1
    · have h' : s.ref_count - 1 = 0 := by omega
      simp [g_thread_unref, h, h']
    · have h' : s.ref_count - 1 ≠ 0 := by omega
      simp [g_thread_unref, h, h']
  · rw [g_thread_ref_iterate, Function.iterate_succ_apply']
    rw [g_thread_unref_iterate 0 0 n (1 + n) (by omega)]
    have h1 : (1 : Int) + n - n = 1 := by ring
    rw [h1]
    simp [g_thread_unref]

/-- C7 counterexample: with the Intel Mac timebase 1/1 the normalized
denominator is 1000, so ticks 1 and 2 both map to 0 — the value for the
strictly larger tick count is not strictly greater; and with timebase 3/2
(normalized denominator not a multiple of the numerator) 2000 ticks yield
1 whereas the correct microsecond conversion `ticks * numer / (denom *
1000)` is 3. -/
theorem g_get_monotonic_time_cex :
    g_get_monotonic_time ⟨1, 1⟩ 1 = 0 ∧ g_get_monotonic_time ⟨1, 1⟩ 2 = 0 ∧
    (1 : Nat) < 2 ∧
    g_get_monotonic_time ⟨3, 2⟩ 2000 = 1 ∧ 2000 * 3 / (2 * 1000) = 3 := by
  refine ⟨?_, ?_, ?_, ?_, ?_⟩ <;> decide

theorem nat_div_div_eq_mul_div (t q d : Nat) (hq : 0 < q) (hd : d % q = 0) :
    t / (d / q) = t * q / d := by
  obtain ⟨m, rfl⟩ := Nat.dvd_of_mod_eq_zero hd
  rw [Nat.mul_div_cancel_left m hq]
  rw [Nat.mul_comm t q]
  rw [Nat.mul_div_mul_left t m hq]

/-- C7 amended: `g_get_monotonic_time` is non-decreasing in the tick count
(truncating division permits equal successive values), and it equals the
tick count correctly converted to microseconds exactly when the
normalization reduces the numerator to 1 (true of real Apple timebases
1/1 and 125/3); otherwise the returned value ignores the numerator. -/
theorem g_get_monotonic_time_mono_conv (tb : Timebase) (t1 t2 : Nat)
    (hn : 0 < tb.numer) (h1 : (normalize_timebase tb).numer = 1) :
    (t1 ≤ t2 → g_get_monotonic_time tb t1 ≤ g_get_monotonic_time tb t2) ∧
    g_get_monotonic_time tb t1 = t1 * tb.numer / (tb.denom * 1000) := by
  constructor
  · intro h
    exact Nat.div_le_div_right h
  · by_cases hmod : tb.numer % 1000 = 0
    · by_cases hdiv : tb.denom % (tb.numer / 1000) = 0
      · have hnorm : (normalize_timebase tb).denom = tb.denom / (tb.numer / 1000) := by
          simp [normalize_timebase, hmod, hdiv]
        obtain ⟨q, hq⟩ := Nat.dvd_of_mod_eq_zero hmod
        have hqpos : 0 < q := by
          rcases Nat.eq_zero_or_pos q with h0 | h0
          · rw [h0, Nat.mul_zero] at hq; omega
          · exact h0
        have hq1000 : tb.numer / 1000 = q := by
          rw [hq]; exact Nat.mul_div_cancel_left q (by omega)
        show t1 / (normalize_timebase tb).denom = _
        rw [hnorm, hq1000]
        rw [hq1000] at hdiv
        rw [nat_div_div_eq_mul_div t1 q tb.denom hqpos hdiv]
        rw [hq, show t1 * (1000 * q) = 1000 * (t1 * q) from by ring,
          show tb.denom * 1000 = 1000 * tb.denom from by ring]
        rw [Nat.mul_div_mul_left (t1 * q) tb.denom (by omega)]
      · have hnum : (normalize_timebase tb).numer = tb.numer / 1000 := by
          simp [normalize_timebase, hmod, hdiv]
        rw [hnum] at h1
        rw [h1] at hdiv
        exact absurd (Nat.mod_one tb.denom) hdiv
    · by_cases hdiv : tb.denom * 1000 % tb.numer = 0
      · have hnorm : (normalize_timebase tb).denom = tb.denom * 1000 / tb.numer := by
          simp [normalize_timebase, hmod, hdiv]
        show t1 / (normalize_timebase tb).denom = _
        rw [hnorm]
        exact nat_div_div_eq_mul_div t1 tb.numer (tb.denom * 1000) hn hdiv
      · have hnum : (normalize_timebase tb).numer = tb.numer := by
          simp [normalize_timebase, hmod, hdiv]
        rw [hnum] at h1
        rw [h1] at hdiv
        exact absurd (Nat.mod_one (tb.denom * 1000)) hdiv

/-- Witness for C7 amended: the Apple Silicon timebase 125/3 normalizes to
denominator 24 with numerator 1, and 24 and 48 ticks convert monotonically
and exactly (48 / 24 = 2 = 48 * 125 / 3000). -/
theorem g_get_monotonic_time_mono_conv_witness :
    (0 < (125 : Nat)) ∧ (normalize_timebase ⟨125, 3⟩).numer = 1 ∧
    ((24 ≤ 48 → g_get_monotonic_time ⟨125, 3⟩ 24 ≤ g_get_monotonic_time ⟨125, 3⟩ 48) ∧
      g_get_monotonic_time ⟨125, 3⟩ 24 = 24 * 125 / (3 * 1000)) :=
  ⟨by decide, by decide,
    g_get_monotonic_time_mono_conv ⟨125, 3⟩ 24 48 (by decide) (by decide)⟩

theorem g_private_get_after_set (t tid v : Nat) (s : PrivState) :
    (g_private_get t (g_private_set tid v s)).1 =
      if t = tid then v else (g_private_get t s).1 := by
  rcases hp : s.key.p with _ | impl <;>
    by_cases ht : t = tid <;>
      simp [g_private_get, g_private_set, g_private_get_impl, hp, ht]

theorem g_private_run_ops (ops : List PrivOp) (t : Nat) (s : PrivState) :
    (g_private_get t (runPrivOps ops s)).1 =
      ops.foldl (fun acc op => if op.tid = t then op.value else acc)
        (g_private_get t s).1 := by
  induction ops generalizing s with
  | nil => rfl
  | cons op ops ih =>
      show (g_private_get t (runPrivOps ops (g_private_set op.tid op.value s))).1 = _
      rw [ih (g_private_set op.tid op.value s)]
      rw [g_private_get_after_set t op.tid op.value s]
      by_cases h : op.tid = t
      · simp [h, List.foldl_cons]
      · have h' : ¬ t = op.tid := fun he => h he.symm
        simp [h, h', List.foldl_cons]

/-- C8: against a zero-initialized (or already-allocated) `GPrivate` with
a fresh TLS store, after any sequence of `g_private_set` calls by any
threads, `g_private_get` run by thread `tid` returns exactly the value
most recently stored by `tid` itself, and the null sentinel 0 if `tid`
never called `g_private_set` — stores by other threads are never
observed. -/
theorem g_private_per_thread (ops : List PrivOp) (tid : Nat)
    (slot notify : Option Nat) (a : AllocState) :
    (g_private_get tid (runPrivOps ops (privInit notify slot a))).1 =
      lastSetBy tid ops := by
  rw [g_private_run_ops]
  have hbase : (g_private_get tid (privInit notify slot a)).1 = 0 := by
    rcases slot with _ | impl <;>
      simp [g_private_get, g_private_get_impl, privInit]
  rw [hbase]
  rfl

/-- C9: for every test bitmask and every filesystem state, `g_file_test`
with a null filename returns 0 and issues no system call. -/
theorem g_file_test_null (test : Nat) (fs : FileSystem) :
    g_file_test none test fs = (0, []) := rfl

/-- C10: `g_clear_error` is a no-op on a null argument or a pointer to a
null error, otherwise frees the error object and nulls the caller's slot;
a second consecutive call leaves the slot unchanged and frees nothing, so
two calls have the effect of one. -/
theorem g_clear_error_null_safe_idempotent (err : Option (Option GError)) :
    g_clear_error none = (none, []) ∧
    g_clear_error (some none) = (some none, []) ∧
    (∀ e, g_clear_error (some (some e)) = (some none, [e])) ∧
    g_clear_error (g_clear_error err).1 = ((g_clear_error err).1, []) := by
  refine ⟨rfl, rfl, fun e => rfl, ?_⟩
  rcases err with _ | e
  · rfl
  · rcases e with _ | e <;> rfl

end QuasiGlib
